import Mathlib

/-!
Verification of the chunked true-random byte fetcher and statistics engine
of `visual.py` (`fetch_random_bytes_from_random_org`, `compute_autocorrelation`,
and the reshape / histogram / bit-balance computations inlined in `main`).

The fetcher is embedded as a pure function over a response environment
`responses : Nat → String` giving the body text of the i-th HTTP chunk
response (transport-level success is assumed; transport failures are outside
the shallow embedding). Python exceptions become an explicit error type,
keyed by the raise site in the source. Real arithmetic (numpy float)
is embedded over the rationals.
-/

namespace DevRand

/-- Errors the fetcher can raise, one constructor per raise site:
`configError` is the ValueError raised for a total count that is not a
multiple of the chunk size; `serviceError` is the RuntimeError raised for an
error-marked body or a wrong element count; `intParseError` is the ValueError
raised by `int(x)` on a token that is not an integer literal;
`zeroDivisionError` is the ZeroDivisionError raised by `%` when the chunk
size is zero. -/
inductive FetchError where
  | configError (msg : String)
  | serviceError (msg : String)
  | intParseError
  | zeroDivisionError
deriving DecidableEq, Repr

deriving instance DecidableEq for Except

/-- Python `body.strip()`: remove leading and trailing whitespace. -/
def pyStrip (s : String) : String :=
  String.mk (((s.data.dropWhile Char.isWhitespace).reverse.dropWhile
    Char.isWhitespace).reverse)

/-- Python `text.startswith(marker)`. -/
def pyStartsWith (s marker : String) : Bool :=
  marker.data.isPrefixOf s.data

/-- Python `text.split()` on the character list: split on whitespace runs,
dropping empty pieces, so the tokens are the maximal whitespace-free runs. -/
def pyWords (l : List Char) : List (List Char) :=
  (l.foldr
    (fun c acc =>
      if c.isWhitespace then
        [] :: acc
      else
        match acc with
        | [] => [[c]]
        | w :: rest => (c :: w) :: rest)
    []).filter (fun w => w ≠ [])

/-- Value of a nonempty all-digit character list, base 10
(the digit-string core of Python `int`). -/
def digitsVal? (l : List Char) : Option Nat :=
  if l ≠ [] ∧ l.all Char.isDigit then
    some (l.foldl (fun acc c => acc * 10 + (c.toNat - 48)) 0)
  else
    none

/-- Python `int(tok)` on a whitespace-free token: an optional sign followed
by decimal digits; any other shape raises ValueError (here: `none`). -/
def pyInt? (tok : List Char) : Option Int :=
  match tok with
  | '+' :: rest => (digitsVal? rest).map Int.ofNat
  | '-' :: rest => (digitsVal? rest).map (fun n => -(n : Int))
  | l => (digitsVal? l).map Int.ofNat

/-- `[int(x) for x in text.split()]`: parse every token left to right,
failing at the first token that is not an integer literal. -/
def parseInts? (text : String) : Option (List Int) :=
  (pyWords text.data).mapM pyInt?

/-- Storing a Python int into a numpy uint8 cell: C-style wraparound
reduction modulo 256 (`np.array(vals, dtype=np.uint8)`). -/
def toUInt8Wrap (v : Int) : Nat :=
  (v % 256).toNat

/-- One iteration of the fetch loop, for a chunk response whose body text is
`body`: strip, check for the `Error:` marker, parse the integers, check the
element count, and store the values as uint8 bytes. -/
def processChunk (chunk_size : Nat) (body : String) : Except FetchError (List Nat) :=
  let text := pyStrip body
  if pyStartsWith text "Error:" then
    Except.error (FetchError.serviceError ("Random.org error: " ++ text))
  else
    match parseInts? text with
    | none => Except.error FetchError.intParseError
    | some vals =>
      if vals.length ≠ chunk_size then
        Except.error (FetchError.serviceError
          ("Unexpected count from Random.org: got " ++ toString vals.length
            ++ " expected " ++ toString chunk_size))
      else
        Except.ok (vals.map toUInt8Wrap)

/-- Exception sequencing for one loop iteration: a failed chunk aborts (its
error propagates and the rest of the loop is dead code); a successful chunk
contributes its bytes in front of the remaining result. -/
def fetchStep (res rest : Except FetchError (List Nat)) : Except FetchError (List Nat) :=
  match res with
  | Except.error e => Except.error e
  | Except.ok chunk =>
    match rest with
    | Except.error e => Except.error e
    | Except.ok r => Except.ok (chunk ++ r)

/-- The fetch loop: process `count` chunks starting at request index `i`,
concatenating the resulting bytes in request order; the first failing chunk
aborts the remaining requests. -/
def fetchChunks (chunk_size : Nat) (responses : Nat → String) :
    Nat → Nat → Except FetchError (List Nat)
  | _, 0 => Except.ok []
  | i, Nat.succ k =>
    fetchStep (processChunk chunk_size (responses i))
      (fetchChunks chunk_size responses (i + 1) k)

/-- `fetch_random_bytes_from_random_org(n_bytes, chunk_size)` over the
response environment `responses`: rejects `chunk_size = 0`
(ZeroDivisionError in `n_bytes % chunk_size`), rejects a total count that is
not a multiple of the chunk size before touching the network, and otherwise
runs `n_bytes // chunk_size` sequential chunk requests. -/
def fetch_random_bytes_from_random_org (n_bytes chunk_size : Nat)
    (responses : Nat → String) : Except FetchError (List Nat) :=
  if chunk_size = 0 then
    Except.error FetchError.zeroDivisionError
  else if n_bytes % chunk_size ≠ 0 then
    Except.error (FetchError.configError
      "n_bytes must be a multiple of chunk_size for this simple fetcher.")
  else
    fetchChunks chunk_size responses 0 (n_bytes / chunk_size)

/-- The source label `main` attaches to remotely fetched data. -/
def remoteLabel : String := "Random.org (atmospheric noise)"

/-- The source label `main` attaches to fallback data. -/
def fallbackLabel : String := "Fallback: NumPy PRNG (not true randomness)"

/-- The acquisition step of `main`: try the fetcher; on success tag the
buffer with the remote label; on any failure either substitute the
caller-supplied fallback buffer under the fallback label (when fallback is
enabled) or propagate the error. -/
def main_acquire (n_bytes chunk_size : Nat) (responses : Nat → String)
    (use_fallback : Bool) (fallbackData : List Nat) :
    Except FetchError (List Nat × String) :=
  match fetch_random_bytes_from_random_org n_bytes chunk_size responses with
  | Except.ok data => Except.ok (data, remoteLabel)
  | Except.error e =>
    if use_fallback then Except.ok (fallbackData, fallbackLabel)
    else Except.error e

/-- A chunk body is good for chunk size `C` when its stripped text does not
carry the error marker and parses to exactly the integer list `vals` of
length `C`. -/
def GoodChunk (chunk_size : Nat) (body : String) (vals : List Int) : Prop :=
  (pyStartsWith (pyStrip body) "Error:") = false ∧
  parseInts? (pyStrip body) = some vals ∧ vals.length = chunk_size

instance (chunk_size : Nat) (body : String) (vals : List Int) :
    Decidable (GoodChunk chunk_size body vals) := by
  unfold GoodChunk
  exact inferInstance

/-- `np.dot` over rationals: sum of pointwise products. -/
def dotQ (a b : List ℚ) : ℚ :=
  (List.zipWith (fun u v => u * v) a b).sum

/-- `compute_autocorrelation(series, max_lag)`: subtract the sample mean,
normalize by the biased sample variance `dot(x, x) / len(x)`; a zero
variance yields `max_lag` zeros, otherwise entry `i` (for lag `i + 1`) is
`dot(x[: len - lag], x[lag :]) / len(x) / var`. Floats are embedded as
rationals. -/
def compute_autocorrelation (series : List ℚ) (max_lag : Nat) : List ℚ :=
  let m := series.sum / (series.length : ℚ)
  let x := series.map (fun v => v - m)
  let var := dotQ x x / (x.length : ℚ)
  if var = 0 then
    List.replicate max_lag 0
  else
    (List.range max_lag).map (fun i =>
      (dotQ (x.take (x.length - (i + 1))) (x.drop (i + 1)) / (x.length : ℚ)) / var)

/-- The reshape step of `main`: `side` is the integer square root of the
buffer length, the buffer is truncated to its first `side * side` elements,
and the grid is the `side x side` row-major reshape of the truncated buffer. -/
def reshape_to_grid (data : List Nat) : List (List Nat) :=
  let side := Nat.sqrt data.length
  let d := data.take (side * side)
  (List.range side).map (fun r => (d.drop (r * side)).take side)

/-- Bin membership test of `np.histogram(data, bins=np.arange(257))` for
integer data: bin `v < 255` holds the values `x` with `v <= x < v + 1`, and
the last bin `v = 255` is closed on the right, holding `255 <= x <= 256`. -/
def binPred (v x : Nat) : Bool :=
  decide (v ≤ x) && (decide (x < v + 1) || (decide (v = 255) && decide (x ≤ 256)))

/-- The histogram step of `main`: occurrence counts over the 256 bins of
`np.histogram(data, bins=np.arange(257))`. -/
def histogram (data : List Nat) : List Nat :=
  (List.range 256).map (fun v => (data.filter (binPred v)).length)

/-- The bit-balance step of `main`: for each bit position `b` in 0..7, the
mean of `(x >> b) & 1` over the buffer. -/
def bit_balance (data : List Nat) : List ℚ :=
  (List.range 8).map (fun b =>
    let s : Nat := (data.map (fun x => (x >>> b) &&& 1)).sum
    (s : ℚ) / (data.length : ℚ))

/-- Unfolding lemma for the base case of the fetch loop. -/
theorem fetchChunks_zero (C : Nat) (rs : Nat → String) (i : Nat) :
    fetchChunks C rs i 0 = Except.ok [] := rfl

/-- Unfolding lemma for the recursive case of the fetch loop. -/
theorem fetchChunks_succ (C : Nat) (rs : Nat → String) (i k : Nat) :
    fetchChunks C rs i (k + 1) =
      fetchStep (processChunk C (rs i)) (fetchChunks C rs (i + 1) k) := rfl

/-- `fetchStep` on two successes concatenates. -/
theorem fetchStep_ok (l r : List Nat) :
    fetchStep (Except.ok l) (Except.ok r) = Except.ok (l ++ r) := rfl

/-- `fetchStep` propagates a chunk failure. -/
theorem fetchStep_error (e : FetchError) (rest : Except FetchError (List Nat)) :
    fetchStep (Except.error e) rest = Except.error e := rfl

/-- `fetchStep` propagates a failure of the remaining loop. -/
theorem fetchStep_ok_error (l : List Nat) (e : FetchError) :
    fetchStep (Except.ok l) (Except.error e) = Except.error e := rfl

/-- A good chunk is processed into its values stored as wrapped bytes. -/
theorem processChunk_ok_of_good (C : Nat) (body : String) (vals : List Int)
    (h : GoodChunk C body vals) :
    processChunk C body = Except.ok (vals.map toUInt8Wrap) := by
  obtain ⟨h1, h2, h3⟩ := h
  simp [processChunk, h1, h2, h3]

/-- The fetch loop over `k` good chunks starting at request index `i`
returns the concatenation, in request order, of the wrapped byte lists. -/
theorem fetchChunks_ok_of_good (C : Nat) (rs : Nat → String) (valsOf : Nat → List Int) :
    ∀ (k i : Nat), (∀ t, t < k → GoodChunk C (rs (i + t)) (valsOf (i + t))) →
      fetchChunks C rs i k =
        Except.ok (((List.range k).map (fun t => (valsOf (i + t)).map toUInt8Wrap)).flatten) := by
  intro k
  induction k with
  | zero => intro i _; rfl
  | succ k ih =>
    intro i h
    have h0 : GoodChunk C (rs i) (valsOf i) := by
      have := h 0 (Nat.succ_pos k)
      simpa using this
    have hrest : fetchChunks C rs (i + 1) k =
        Except.ok (((List.range k).map (fun t => (valsOf ((i + 1) + t)).map toUInt8Wrap)).flatten) := by
      apply ih
      intro t ht
      have := h (t + 1) (by omega)
      have harg : i + (t + 1) = (i + 1) + t := by omega
      rwa [harg] at this
    have hch := processChunk_ok_of_good C (rs i) (valsOf i) h0
    have hmap : (List.range k).map ((fun t => (valsOf (i + t)).map toUInt8Wrap) ∘ Nat.succ)
        = (List.range k).map (fun t => (valsOf ((i + 1) + t)).map toUInt8Wrap) := by
      apply List.map_congr_left
      intro t _
      have harg : i + Nat.succ t = (i + 1) + t := by omega
      simp only [Function.comp_apply, harg]
    rw [fetchChunks_succ, hch, hrest, fetchStep_ok, List.range_succ_eq_map,
      List.map_cons, List.map_map, List.flatten_cons, hmap]
    rfl

/-- The fetch loop reads only the responses at the indices it requests. -/
theorem fetchChunks_congr (C : Nat) (rs rs' : Nat → String) :
    ∀ (k i : Nat), (∀ t, t < k → rs' (i + t) = rs (i + t)) →
      fetchChunks C rs' i k = fetchChunks C rs i k := by
  intro k
  induction k with
  | zero => intro i _; rfl
  | succ k ih =>
    intro i h
    have h0 : rs' i = rs i := by
      have := h 0 (Nat.succ_pos k)
      simpa using this
    have hrest : fetchChunks C rs' (i + 1) k = fetchChunks C rs (i + 1) k := by
      apply ih
      intro t ht
      have := h (t + 1) (by omega)
      have harg : i + (t + 1) = (i + 1) + t := by omega
      rwa [harg] at this
    rw [fetchChunks_succ, fetchChunks_succ, h0, hrest]

/-- If the first `t` chunks are good and chunk `i + t` fails, the fetch loop
propagates that failure. -/
theorem fetchChunks_error_at (C : Nat) (rs : Nat → String) (valsOf : Nat → List Int)
    (e : FetchError) :
    ∀ (t i k : Nat), t < k →
      (∀ s, s < t → GoodChunk C (rs (i + s)) (valsOf (i + s))) →
      processChunk C (rs (i + t)) = Except.error e →
      fetchChunks C rs i k = Except.error e := by
  intro t
  induction t with
  | zero =>
    intro i k hk _ herr
    obtain ⟨k', rfl⟩ : ∃ k', k = k' + 1 := ⟨k - 1, by omega⟩
    simp only [Nat.add_zero] at herr
    rw [fetchChunks_succ, herr, fetchStep_error]
  | succ t ih =>
    intro i k hk hgood herr
    obtain ⟨k', rfl⟩ : ∃ k', k = k' + 1 := ⟨k - 1, by omega⟩
    have h0 : GoodChunk C (rs i) (valsOf i) := by
      have := hgood 0 (Nat.succ_pos t)
      simpa using this
    have hch := processChunk_ok_of_good C (rs i) (valsOf i) h0
    have hrest : fetchChunks C rs (i + 1) k' = Except.error e := by
      apply ih (i + 1) k' (by omega)
      · intro s hs
        have := hgood (s + 1) (by omega)
        have harg : i + (s + 1) = (i + 1) + s := by omega
        rwa [harg] at this
      · have harg : (i + 1) + t = i + (t + 1) := by omega
        rw [harg]
        exact herr
    rw [fetchChunks_succ, hch, hrest, fetchStep_ok_error]

/-- With a nonzero chunk size and a divisible total, the fetcher is the
chunk loop started at request index 0. -/
theorem fetch_eq_loop (n C : Nat) (rs : Nat → String) (hC : C ≠ 0) (hmod : n % C = 0) :
    fetch_random_bytes_from_random_org n C rs = fetchChunks C rs 0 (n / C) := by
  unfold fetch_random_bytes_from_random_org
  rw [if_neg hC, if_neg (by simp [hmod])]

/-- Every stored byte is at most 255. -/
theorem toUInt8Wrap_le (v : Int) : toUInt8Wrap v ≤ 255 := by
  unfold toUInt8Wrap
  omega

/-- Length of the concatenation of `k` chunks of `C` values each. -/
theorem join_chunks_length (valsOf : Nat → List Int) (C k : Nat)
    (h : ∀ t, t < k → (valsOf t).length = C) :
    (((List.range k).map (fun t => (valsOf t).map toUInt8Wrap)).flatten).length = k * C := by
  rw [List.length_flatten, List.map_map]
  have hmap : (List.range k).map (List.length ∘ fun t => (valsOf t).map toUInt8Wrap) =
      (List.range k).map (fun _ => C) := by
    apply List.map_congr_left
    intro t ht
    simp only [Function.comp, List.length_map]
    exact h t (List.mem_range.mp ht)
  rw [hmap]
  simp [List.map_const', List.sum_replicate, mul_comm]

/-- When every requested chunk is good, the fetcher returns the
concatenation, in request order, of the per-chunk wrapped byte lists. -/
theorem fetch_ok_of_good (n C : Nat) (rs : Nat → String) (valsOf : Nat → List Int)
    (hC : 0 < C) (hmod : n % C = 0)
    (hgood : ∀ i, i < n / C → GoodChunk C (rs i) (valsOf i)) :
    fetch_random_bytes_from_random_org n C rs =
      Except.ok (((List.range (n / C)).map (fun i => (valsOf i).map toUInt8Wrap)).flatten) := by
  rw [fetch_eq_loop n C rs (by omega) hmod]
  have h := fetchChunks_ok_of_good C rs valsOf (n / C) 0 (by
    intro t ht
    simpa using hgood t ht)
  simpa using h

/-- Claim C1: for `N mod C = 0`, when every chunk request succeeds and each
response parses to exactly `C` integers, the fetcher issues exactly `N / C`
sequential chunk requests (its result reads only the first `N / C`
responses) and returns a buffer of length exactly `N` that is the chunk
responses concatenated in request order, and `main` tags the result with
the remote source label. -/
theorem C1_fetch_success (n C : Nat) (rs : Nat → String) (valsOf : Nat → List Int)
    (hC : 0 < C) (hmod : n % C = 0)
    (hgood : ∀ i, i < n / C → GoodChunk C (rs i) (valsOf i)) :
    fetch_random_bytes_from_random_org n C rs =
      Except.ok (((List.range (n / C)).map (fun i => (valsOf i).map toUInt8Wrap)).flatten) ∧
    (((List.range (n / C)).map (fun i => (valsOf i).map toUInt8Wrap)).flatten).length = n ∧
    (∀ (use_fallback : Bool) (fallbackData : List Nat),
      main_acquire n C rs use_fallback fallbackData =
        Except.ok
          ((((List.range (n / C)).map (fun i => (valsOf i).map toUInt8Wrap)).flatten),
            remoteLabel)) ∧
    (∀ rs' : Nat → String, (∀ i, i < n / C → rs' i = rs i) →
      fetch_random_bytes_from_random_org n C rs' =
        fetch_random_bytes_from_random_org n C rs) := by
  have hfetch := fetch_ok_of_good n C rs valsOf hC hmod hgood
  refine ⟨hfetch, ?_, ?_, ?_⟩
  · rw [join_chunks_length valsOf C (n / C) (fun t ht => (hgood t ht).2.2)]
    exact Nat.div_mul_cancel (Nat.dvd_of_mod_eq_zero hmod)
  · intro use_fallback fallbackData
    unfold main_acquire
    rw [hfetch]
  · intro rs' hrs
    rw [fetch_eq_loop n C rs (by omega) hmod, fetch_eq_loop n C rs' (by omega) hmod]
    apply fetchChunks_congr
    intro t ht
    simpa using hrs t ht

/-- Concrete instance of C1: two chunks of two integers each, fetched and
concatenated in order. -/
theorem C1_fetch_success_witness :
    fetch_random_bytes_from_random_org 4 2 (fun i => if i = 0 then "10 300" else "0 255") =
      Except.ok [10, 44, 0, 255] ∧
    ([10, 44, 0, 255] : List Nat).length = 4 := by
  have h := C1_fetch_success 4 2 (fun i => if i = 0 then "10 300" else "0 255")
    (fun i => if i = 0 then [10, 300] else [0, 255]) (by decide) (by decide) (by decide)
  exact ⟨h.1.trans (by decide), by decide⟩

/-- Claim C3: for `N mod C = 0`, when the chunks before request `i` are all
good and the response of request `i` carries no error marker but parses to
an element count different from `C`, the fetcher raises `ServiceError`
(RuntimeError, wrong-count message) and returns no buffer at all: no buffer
holding the bytes of the earlier successful chunks is ever exposed. -/
theorem C3_wrong_count (n C : Nat) (rs : Nat → String) (valsOf : Nat → List Int)
    (i : Nat) (vals : List Int)
    (hC : 0 < C) (hmod : n % C = 0) (hi : i < n / C)
    (hbefore : ∀ j, j < i → GoodChunk C (rs j) (valsOf j))
    (hmark : pyStartsWith (pyStrip (rs i)) "Error:" = false)
    (hparse : parseInts? (pyStrip (rs i)) = some vals)
    (hlen : vals.length ≠ C) :
    fetch_random_bytes_from_random_org n C rs =
      Except.error (FetchError.serviceError
        ("Unexpected count from Random.org: got " ++ toString vals.length
          ++ " expected " ++ toString C)) ∧
    ∀ buf : List Nat, fetch_random_bytes_from_random_org n C rs ≠ Except.ok buf := by
  have herr : processChunk C (rs i) = Except.error (FetchError.serviceError
      ("Unexpected count from Random.org: got " ++ toString vals.length
        ++ " expected " ++ toString C)) := by
    simp [processChunk, hmark, hparse, hlen]
  have hfetch : fetch_random_bytes_from_random_org n C rs = Except.error
      (FetchError.serviceError
        ("Unexpected count from Random.org: got " ++ toString vals.length
          ++ " expected " ++ toString C)) := by
    rw [fetch_eq_loop n C rs (by omega) hmod]
    apply fetchChunks_error_at C rs valsOf _ i 0 (n / C) hi
    · intro s hs
      simpa using hbefore s hs
    · simpa using herr
  exact ⟨hfetch, fun buf h => by rw [hfetch] at h; exact Except.noConfusion h⟩

/-- Concrete instance of C3: the first chunk is good, the second parses to
one integer instead of two, so the fetch fails with the wrong-count
ServiceError. -/
theorem C3_wrong_count_witness :
    fetch_random_bytes_from_random_org 4 2 (fun i => if i = 0 then "1 2" else "7") =
      Except.error (FetchError.serviceError
        "Unexpected count from Random.org: got 1 expected 2") := by
  have h := C3_wrong_count 4 2 (fun i => if i = 0 then "1 2" else "7")
    (fun _ => [1, 2]) 1 [7] (by decide) (by decide) (by decide)
    (by intro j hj; interval_cases j; decide) (by decide) (by decide) (by decide)
  exact h.1.trans (by decide)

/-- Claim C4: when the total byte count is not a multiple of the chunk
size, the fetcher raises `ConfigurationError` (ValueError) before any
network activity: the result is the same no matter what any chunk response
would have been. -/
theorem C4_not_multiple (n C : Nat) (hC : 0 < C) (hmod : n % C ≠ 0) :
    (∀ rs : Nat → String, fetch_random_bytes_from_random_org n C rs =
      Except.error (FetchError.configError
        "n_bytes must be a multiple of chunk_size for this simple fetcher.")) ∧
    (∀ rs rs' : Nat → String,
      fetch_random_bytes_from_random_org n C rs =
        fetch_random_bytes_from_random_org n C rs') := by
  have h : ∀ rs : Nat → String, fetch_random_bytes_from_random_org n C rs =
      Except.error (FetchError.configError
        "n_bytes must be a multiple of chunk_size for this simple fetcher.") := by
    intro rs
    unfold fetch_random_bytes_from_random_org
    rw [if_neg (by omega), if_pos hmod]
  exact ⟨h, fun rs rs' => (h rs).trans (h rs').symm⟩

/-- Concrete instance of C4: 5 bytes with chunk size 2 is rejected as a
configuration error, independent of the responses. -/
theorem C4_not_multiple_witness :
    fetch_random_bytes_from_random_org 5 2 (fun _ => "1 2") =
      Except.error (FetchError.configError
        "n_bytes must be a multiple of chunk_size for this simple fetcher.") :=
  (C4_not_multiple 5 2 (by decide) (by decide)).1 (fun _ => "1 2")

/-- Claim C5: for `N mod C = 0`, when the chunks before request `i` are all
good and the stripped response body of request `i` begins with the error
marker, the fetcher raises `ServiceError` with a message that contains the
marker text (the whole stripped body), and returns no buffer. -/
theorem C5_error_marker (n C : Nat) (rs : Nat → String) (valsOf : Nat → List Int)
    (i : Nat)
    (hC : 0 < C) (hmod : n % C = 0) (hi : i < n / C)
    (hbefore : ∀ j, j < i → GoodChunk C (rs j) (valsOf j))
    (hmark : pyStartsWith (pyStrip (rs i)) "Error:" = true) :
    fetch_random_bytes_from_random_org n C rs =
      Except.error (FetchError.serviceError ("Random.org error: " ++ pyStrip (rs i))) ∧
    (∃ before after : String,
      "Random.org error: " ++ pyStrip (rs i) = before ++ (pyStrip (rs i) ++ after)) ∧
    ∀ buf : List Nat, fetch_random_bytes_from_random_org n C rs ≠ Except.ok buf := by
  have herr : processChunk C (rs i) =
      Except.error (FetchError.serviceError ("Random.org error: " ++ pyStrip (rs i))) := by
    simp [processChunk, hmark]
  have hfetch : fetch_random_bytes_from_random_org n C rs =
      Except.error (FetchError.serviceError ("Random.org error: " ++ pyStrip (rs i))) := by
    rw [fetch_eq_loop n C rs (by omega) hmod]
    apply fetchChunks_error_at C rs valsOf _ i 0 (n / C) hi
    · intro s hs
      simpa using hbefore s hs
    · simpa using herr
  refine ⟨hfetch, ⟨"Random.org error: ", "", by rw [String.append_empty]⟩,
    fun buf h => by rw [hfetch] at h; exact Except.noConfusion h⟩

/-- Concrete instance of C5: an error-marked body on the first of two
chunks produces a ServiceError carrying the marker text. -/
theorem C5_error_marker_witness :
    fetch_random_bytes_from_random_org 2 1 (fun _ => "Error: quota exceeded") =
      Except.error (FetchError.serviceError
        "Random.org error: Error: quota exceeded") := by
  have h := C5_error_marker 2 1 (fun _ => "Error: quota exceeded") (fun _ => [])
    0 (by decide) (by decide) (by decide) (by intro j hj; omega) (by decide)
  exact h.1.trans (by decide)

/-- Claim C10: the fetcher performs no range validation on parsed values:
any chunk whose text parses to exactly `C` integers is accepted, each value
being stored reduced modulo 256, so the buffer satisfies the
all-elements-in-[0, 255] invariant but need not equal what the service
sent; concretely, the response `"300 -1"` is accepted and stored as
`[44, 255]`. -/
theorem C10_no_range_validation (n C : Nat) (rs : Nat → String)
    (valsOf : Nat → List Int)
    (hC : 0 < C) (hmod : n % C = 0)
    (hgood : ∀ i, i < n / C → GoodChunk C (rs i) (valsOf i)) :
    (∀ v : Int, toUInt8Wrap v = (v % 256).toNat ∧ toUInt8Wrap v ≤ 255) ∧
    fetch_random_bytes_from_random_org n C rs =
      Except.ok (((List.range (n / C)).map (fun i => (valsOf i).map toUInt8Wrap)).flatten) ∧
    (∀ x ∈ ((List.range (n / C)).map (fun i => (valsOf i).map toUInt8Wrap)).flatten,
      x ≤ 255) ∧
    (fetch_random_bytes_from_random_org 2 2 (fun _ => "300 -1") = Except.ok [44, 255] ∧
     parseInts? (pyStrip "300 -1") = some [300, -1] ∧
     ([44, 255] : List Nat).map (fun x => (x : Int)) ≠ [300, -1]) := by
  refine ⟨fun v => ⟨rfl, toUInt8Wrap_le v⟩,
    fetch_ok_of_good n C rs valsOf hC hmod hgood, ?_, by decide, by decide, by decide⟩
  intro x hx
  obtain ⟨l, hl, hxl⟩ := List.mem_flatten.mp hx
  obtain ⟨t, _, rfl⟩ := List.mem_map.mp hl
  obtain ⟨v, _, rfl⟩ := List.mem_map.mp hxl
  exact toUInt8Wrap_le v

/-- Concrete instance of C10: a single chunk of two out-of-range integers
is accepted and stored with modulo-256 wraparound. -/
theorem C10_no_range_validation_witness :
    fetch_random_bytes_from_random_org 2 2 (fun _ => "300 -1") =
      Except.ok [44, 255] :=
  (C10_no_range_validation 2 2 (fun _ => "300 -1") (fun _ => [300, -1])
    (by decide) (by decide) (by decide)).2.2.2.1

/-- Claim C2: for a buffer of length at least 2 with nonzero biased sample
variance and `maxLag >= 1`, the autocorrelation has exactly `maxLag`
entries and the entry for lag `L` (position `L - 1`) equals
`dot(x[: len - L], x[L :]) / len(x) / variance`, for `x` the mean-centered
series and `variance = dot(x, x) / len(x)`. -/
theorem C2_autocorrelation_formula (series : List ℚ) (max_lag : Nat)
    (hlen : 2 ≤ series.length) (hml : 1 ≤ max_lag)
    (hvar : dotQ (series.map (fun v => v - series.sum / (series.length : ℚ)))
        (series.map (fun v => v - series.sum / (series.length : ℚ)))
      / (series.length : ℚ) ≠ 0) :
    (compute_autocorrelation series max_lag).length = max_lag ∧
    ∀ L, 1 ≤ L → L ≤ max_lag →
      (compute_autocorrelation series max_lag)[L - 1]? =
        some ((dotQ ((series.map (fun v => v - series.sum / (series.length : ℚ))).take
              (series.length - L))
            ((series.map (fun v => v - series.sum / (series.length : ℚ))).drop L)
          / (series.length : ℚ))
        / (dotQ (series.map (fun v => v - series.sum / (series.length : ℚ)))
            (series.map (fun v => v - series.sum / (series.length : ℚ)))
          / (series.length : ℚ))) := by
  have hxlen : (series.map (fun v => v - series.sum / (series.length : ℚ))).length =
      series.length := List.length_map _ _
  have hunfold : compute_autocorrelation series max_lag =
      (List.range max_lag).map (fun i =>
        (dotQ ((series.map (fun v => v - series.sum / (series.length : ℚ))).take
              (series.length - (i + 1)))
            ((series.map (fun v => v - series.sum / (series.length : ℚ))).drop (i + 1))
          / (series.length : ℚ))
        / (dotQ (series.map (fun v => v - series.sum / (series.length : ℚ)))
            (series.map (fun v => v - series.sum / (series.length : ℚ)))
          / (series.length : ℚ))) := by
    unfold compute_autocorrelation
    dsimp only
    rw [hxlen, if_neg hvar]
  constructor
  · rw [hunfold, List.length_map, List.length_range]
  · intro L hL1 hL2
    rw [hunfold, List.getElem?_map, List.getElem?_range (by omega : L - 1 < max_lag)]
    have hLr : L - 1 + 1 = L := by omega
    rw [Option.map_some', hLr]

/-- Concrete instance of C2: the series 1, 2, 3, 4 with three lags has
three autocorrelation values, the first being 1/4. -/
theorem C2_autocorrelation_formula_witness :
    (compute_autocorrelation [1, 2, 3, 4] 3).length = 3 ∧
    (compute_autocorrelation [1, 2, 3, 4] 3)[0]? = some (1 / 4) := by
  have h := C2_autocorrelation_formula [1, 2, 3, 4] 3 (by decide) (by decide)
    (by norm_num [dotQ])
  refine ⟨h.1, ?_⟩
  have h2 := h.2 1 (by decide) (by decide)
  rw [h2]
  norm_num [dotQ]

/-- Claim C9: over a nonempty constant buffer the sample variance is zero
and the autocorrelation is `maxLag` zeros (a defined fallback, not an
error), for any `maxLag >= 1`. -/
theorem C9_constant_buffer (c : ℚ) (n max_lag : Nat) (hn : 0 < n)
    (hml : 1 ≤ max_lag) :
    compute_autocorrelation (List.replicate n c) max_lag =
      List.replicate max_lag 0 := by
  have hmean : (List.replicate n c).sum / (((List.replicate n c).length : Nat) : ℚ) = c := by
    rw [List.sum_replicate, List.length_replicate, nsmul_eq_mul]
    exact mul_div_cancel_left₀ c (Nat.cast_ne_zero.mpr (by omega))
  have hx : (List.replicate n c).map
      (fun v => v - (List.replicate n c).sum / (((List.replicate n c).length : Nat) : ℚ)) =
      List.replicate n (0 : ℚ) := by
    rw [List.map_replicate, hmean, sub_self]
  have hdot : dotQ (List.replicate n (0 : ℚ)) (List.replicate n (0 : ℚ)) = 0 := by
    unfold dotQ
    rw [List.zipWith_replicate]
    apply List.sum_eq_zero
    intro x hx0
    have := List.eq_of_mem_replicate hx0
    simp [this]
  unfold compute_autocorrelation
  dsimp only
  rw [hx, hdot, zero_div, if_pos rfl]

/-- Concrete instance of C9: a constant buffer of three fives with four
lags yields four zeros. -/
theorem C9_constant_buffer_witness :
    compute_autocorrelation (List.replicate 3 (5 : ℚ)) 4 = List.replicate 4 0 :=
  C9_constant_buffer 5 3 4 (by decide) (by decide)

/-- Flattening the row-major `n x s` grid of a buffer of length `n * s`
recovers the buffer. -/
theorem flatten_grid_rows (s : Nat) :
    ∀ (n : Nat) (d : List Nat), d.length = n * s →
      ((List.range n).map (fun r => (d.drop (r * s)).take s)).flatten = d := by
  intro n
  induction n with
  | zero =>
    intro d hd
    simp only [Nat.zero_mul, List.length_eq_zero] at hd
    simp [hd]
  | succ n ih =>
    intro d hd
    rw [List.range_succ_eq_map, List.map_cons, List.flatten_cons, List.map_map]
    have h0 : (d.drop (0 * s)).take s = d.take s := by
      rw [Nat.zero_mul, List.drop_zero]
    have hmap : (List.range n).map ((fun r => (d.drop (r * s)).take s) ∘ Nat.succ)
        = (List.range n).map (fun r => (((d.drop s).drop (r * s)).take s)) := by
      apply List.map_congr_left
      intro r _
      simp only [Function.comp_apply]
      rw [List.drop_drop,
        show s + r * s = Nat.succ r * s from by rw [Nat.succ_mul]; exact Nat.add_comm _ _]
    have hd' : (d.drop s).length = n * s := by
      rw [List.length_drop, hd, Nat.succ_mul]
      omega
    rw [h0, hmap, ih (d.drop s) hd', List.take_append_drop]

/-- Each row of the row-major `n x s` grid of a buffer of length `n * s`
has length `s`. -/
theorem grid_row_length (s n : Nat) (d : List Nat) (hd : d.length = n * s)
    (r : Nat) (hr : r < n) : ((d.drop (r * s)).take s).length = s := by
  rw [List.length_take, List.length_drop, hd]
  have h1 : (r + 1) * s ≤ n * s := Nat.mul_le_mul_right s (by omega)
  rw [Nat.succ_mul] at h1
  omega

/-- Claim C6: for a nonempty buffer, the reshape step takes `side` as the
largest integer whose square is at most the buffer length, truncates the
buffer to its first `side * side` elements, and produces a `side x side`
grid in row-major order; a buffer of length 10 yields a 3 x 3 grid that
drops the last element, and one of length 16 yields a 4 x 4 grid using all
elements. -/
theorem C6_reshape (data : List Nat) (hne : data ≠ []) :
    (reshape_to_grid data).length = Nat.sqrt data.length ∧
    (∀ row ∈ reshape_to_grid data, row.length = Nat.sqrt data.length) ∧
    (reshape_to_grid data).flatten =
      data.take (Nat.sqrt data.length * Nat.sqrt data.length) ∧
    Nat.sqrt data.length * Nat.sqrt data.length ≤ data.length ∧
    data.length < (Nat.sqrt data.length + 1) * (Nat.sqrt data.length + 1) ∧
    (data.length = 10 → (reshape_to_grid data).length = 3 ∧
      (∀ row ∈ reshape_to_grid data, row.length = 3) ∧
      (reshape_to_grid data).flatten = data.take 9) ∧
    (data.length = 16 → (reshape_to_grid data).length = 4 ∧
      (∀ row ∈ reshape_to_grid data, row.length = 4) ∧
      (reshape_to_grid data).flatten = data) := by
  have hsle : Nat.sqrt data.length * Nat.sqrt data.length ≤ data.length :=
    Nat.sqrt_le data.length
  have hslt : data.length < (Nat.sqrt data.length + 1) * (Nat.sqrt data.length + 1) :=
    Nat.lt_succ_sqrt data.length
  have hdlen : (data.take (Nat.sqrt data.length * Nat.sqrt data.length)).length =
      Nat.sqrt data.length * Nat.sqrt data.length := by
    rw [List.length_take]
    omega
  have hgrid : reshape_to_grid data =
      (List.range (Nat.sqrt data.length)).map
        (fun r => ((data.take (Nat.sqrt data.length * Nat.sqrt data.length)).drop
          (r * Nat.sqrt data.length)).take (Nat.sqrt data.length)) := by
    unfold reshape_to_grid
    dsimp only
  have hlen8 : (reshape_to_grid data).length = Nat.sqrt data.length := by
    rw [hgrid, List.length_map, List.length_range]
  have hrows : ∀ row ∈ reshape_to_grid data, row.length = Nat.sqrt data.length := by
    intro row hrow
    rw [hgrid] at hrow
    obtain ⟨r, hr, rfl⟩ := List.mem_map.mp hrow
    exact grid_row_length _ _ _ hdlen r (List.mem_range.mp hr)
  have hflat : (reshape_to_grid data).flatten =
      data.take (Nat.sqrt data.length * Nat.sqrt data.length) := by
    rw [hgrid]
    exact flatten_grid_rows _ _ _ hdlen
  refine ⟨hlen8, hrows, hflat, hsle, hslt, ?_, ?_⟩
  · intro h10
    have hs : Nat.sqrt data.length = 3 := by
      rw [h10]
      exact (Nat.eq_sqrt.mpr (by norm_num)).symm
    refine ⟨by rw [hlen8, hs], fun row hrow => by rw [hrows row hrow, hs], ?_⟩
    rw [hflat, hs]
  · intro h16
    have hs : Nat.sqrt data.length = 4 := by
      rw [h16]
      exact (Nat.eq_sqrt.mpr (by norm_num)).symm
    refine ⟨by rw [hlen8, hs], fun row hrow => by rw [hrows row hrow, hs], ?_⟩
    rw [hflat, hs, show 4 * 4 = 16 from rfl, ← h16, List.take_length]

/-- Concrete instance of C6: a ten-element buffer reshapes to a 3 x 3 grid
that drops the trailing element. -/
theorem C6_reshape_witness :
    reshape_to_grid [0, 1, 2, 3, 4, 5, 6, 7, 8, 9] =
      [[0, 1, 2], [3, 4, 5], [6, 7, 8]] ∧
    (reshape_to_grid [0, 1, 2, 3, 4, 5, 6, 7, 8, 9]).flatten =
      [0, 1, 2, 3, 4, 5, 6, 7, 8] := by
  have h := C6_reshape [0, 1, 2, 3, 4, 5, 6, 7, 8, 9] (by decide)
  have hs : Nat.sqrt 10 = 3 := (Nat.eq_sqrt.mpr (by norm_num)).symm
  constructor
  · unfold reshape_to_grid
    dsimp only
    rw [show ([0, 1, 2, 3, 4, 5, 6, 7, 8, 9] : List Nat).length = 10 from rfl, hs]
    decide
  · exact (h.2.2.2.2.2.1 (by decide)).2.2.trans (by decide)

/-- Pointwise sums of natural-valued maps split. -/
theorem sum_map_add (l : List Nat) (f g : Nat → Nat) :
    (l.map (fun v => f v + g v)).sum = (l.map f).sum + (l.map g).sum := by
  induction l with
  | nil => rfl
  | cons a t ih =>
    simp only [List.map_cons, List.sum_cons, ih]
    omega

/-- The sum over `range n` of the indicator of `a` is 1 when `a < n`. -/
theorem indicator_sum (n a : Nat) (h : a < n) :
    ((List.range n).map (fun v => if v = a then 1 else 0)).sum = 1 := by
  induction n with
  | zero => omega
  | succ n ih =>
    rw [List.range_succ, List.map_append, List.sum_append]
    by_cases ha : a = n
    · subst ha
      have hz : ((List.range a).map (fun v => if v = a then 1 else 0)).sum = 0 := by
        apply List.sum_eq_zero
        intro x hx
        obtain ⟨v, hv, rfl⟩ := List.mem_map.mp hx
        have : v ≠ a := by
          have := List.mem_range.mp hv
          omega
        simp [this]
      simp [hz]
    · rw [ih (by omega)]
      have hna : n ≠ a := fun hh => ha hh.symm
      simp [hna]

/-- The bin test, written as a proposition. -/
theorem binPred_true_iff (v x : Nat) :
    binPred v x = true ↔ (v ≤ x ∧ (x < v + 1 ∨ (v = 255 ∧ x ≤ 256))) := by
  simp [binPred]

/-- Filtering a cons adds the indicator of the head to the count. -/
theorem filter_cons_length (p : Nat → Bool) (a : Nat) (l : List Nat) :
    (List.filter p (a :: l)).length =
      (List.filter p l).length + (if p a = true then 1 else 0) := by
  by_cases h : p a = true <;> simp [List.filter_cons, h]

/-- Over a buffer of bytes (all at most 255), the 256 histogram counts sum
to the buffer length. -/
theorem histogram_sum : ∀ (data : List Nat), (∀ x ∈ data, x ≤ 255) →
    (histogram data).sum = data.length := by
  intro data
  induction data with
  | nil =>
    intro _
    have hz : ∀ y ∈ (List.range 256).map
        (fun v => (List.filter (binPred v) ([] : List Nat)).length), y = 0 := by
      intro y hy
      obtain ⟨v, _, rfl⟩ := List.mem_map.mp hy
      rfl
    unfold histogram
    rw [List.sum_eq_zero hz]
    rfl
  | cons a l ih =>
    intro h
    have ha : a ≤ 255 := h a (List.mem_cons_self a l)
    have hl : ∀ x ∈ l, x ≤ 255 := fun x hx => h x (List.mem_cons_of_mem a hx)
    have hsplit : histogram (a :: l) = (List.range 256).map
        (fun v => (List.filter (binPred v) l).length +
          (if binPred v a = true then 1 else 0)) := by
      unfold histogram
      exact List.map_congr_left (fun v _ => filter_cons_length (binPred v) a l)
    have hiff : ∀ v, (binPred v a = true) ↔ v = a := by
      intro v
      rw [binPred_true_iff]
      omega
    have hind : ((List.range 256).map (fun v => if binPred v a = true then 1 else 0)).sum
        = 1 := by
      have hcongr : (List.range 256).map (fun v => if binPred v a = true then 1 else 0)
          = (List.range 256).map (fun v => if v = a then 1 else 0) :=
        List.map_congr_left (fun v _ => by simp only [hiff])
      rw [hcongr]
      exact indicator_sum 256 a (by omega)
    rw [hsplit, sum_map_add, hind]
    have : ((List.range 256).map (fun v => (List.filter (binPred v) l).length)).sum
        = l.length := ih hl
    rw [this]
    simp

set_option maxRecDepth 16384 in
/-- Claim C7: over any buffer whose elements are all in [0, 255] the 256
histogram counts sum to the buffer length, and the histogram of 100 copies
of the value 5 has count 100 at value 5 and 0 everywhere else. -/
theorem C7_histogram (data : List Nat) (hdata : ∀ x ∈ data, x ≤ 255) :
    (histogram data).length = 256 ∧
    (histogram data).sum = data.length ∧
    histogram (List.replicate 100 5) =
      List.replicate 5 0 ++ 100 :: List.replicate 250 0 := by
  refine ⟨?_, histogram_sum data hdata, by decide⟩
  unfold histogram
  rw [List.length_map, List.length_range]

/-- Concrete instance of C7: the histogram of four bytes sums to 4. -/
theorem C7_histogram_witness :
    (histogram [0, 5, 255, 5]).sum = 4 :=
  (C7_histogram [0, 5, 255, 5] (by decide)).2.1

/-- Claim C8: for a nonempty buffer, the bit balance has 8 entries, the
entry at bit position `p` (0 = least significant) being the mean of
`(byte >> p) & 1` over the buffer; an all-zero buffer yields all-zero
fractions and an all-0xFF buffer yields all-one fractions. -/
theorem C8_bit_balance (data : List Nat) (hne : data ≠ []) :
    (bit_balance data).length = 8 ∧
    (∀ p, p < 8 → (bit_balance data)[p]? =
      some ((((data.map (fun x => (x >>> p) &&& 1)).sum : Nat) : ℚ) /
        (data.length : ℚ))) ∧
    ((∀ x ∈ data, x = 0) → bit_balance data = List.replicate 8 0) ∧
    ((∀ x ∈ data, x = 255) → bit_balance data = List.replicate 8 1) := by
  have hlen0 : (data.length : ℚ) ≠ 0 := by
    have : data.length ≠ 0 := fun h => hne (List.length_eq_zero.mp h)
    exact_mod_cast this
  refine ⟨by simp [bit_balance], ?_, ?_, ?_⟩
  · intro p hp
    unfold bit_balance
    dsimp only
    rw [List.getElem?_map, List.getElem?_range hp, Option.map_some']
  · intro h0
    apply List.eq_replicate_iff.mpr
    refine ⟨by simp [bit_balance], ?_⟩
    intro b hb
    unfold bit_balance at hb
    dsimp only at hb
    obtain ⟨p, _, rfl⟩ := List.mem_map.mp hb
    have hmap : data.map (fun x => (x >>> p) &&& 1) = data.map (fun _ => 0) :=
      List.map_congr_left (fun x hx => by rw [h0 x hx, Nat.zero_shiftRight, Nat.zero_and])
    rw [hmap, List.map_const', List.sum_replicate, smul_zero]
    simp
  · intro h255
    have hbit : ∀ p, p < 8 → ((255 >>> p) &&& 1) = 1 := by decide
    apply List.eq_replicate_iff.mpr
    refine ⟨by simp [bit_balance], ?_⟩
    intro b hb
    unfold bit_balance at hb
    dsimp only at hb
    obtain ⟨p, hp, rfl⟩ := List.mem_map.mp hb
    have hmap : data.map (fun x => (x >>> p) &&& 1) = data.map (fun _ => 1) :=
      List.map_congr_left (fun x hx => by rw [h255 x hx, hbit p (List.mem_range.mp hp)])
    rw [hmap, List.map_const', List.sum_replicate, smul_eq_mul, Nat.mul_one]
    exact div_self hlen0

/-- Concrete instance of C8: the buffer 0, 255 has bit balance one half at
every bit position. -/
theorem C8_bit_balance_witness :
    (bit_balance [0, 255]).length = 8 ∧
    (bit_balance [0, 255])[0]? = some (1 / 2) := by
  have h := C8_bit_balance [0, 255] (by decide)
  refine ⟨h.1, ?_⟩
  rw [h.2.1 0 (by decide)]
  norm_num

end DevRand
